import Mathlib

set_option maxRecDepth 20000
set_option maxHeartbeats 2000000
set_option exponentiation.threshold 10000

/-!
Verification of the ULP-based accuracy comparison engine of the
stdlib-numerical-demo repository (src/lib/compare.js and the mirrored
helpers in src/web/app.js).

JavaScript numbers are IEEE-754 binary64 values.  We embed them as an
inductive type: NaN, signed infinities, and finite values given by a sign
and a magnitude expressed as a natural multiple of the smallest subnormal
2 ^ (-1074).  Finite magnitudes are thus naturals up to
MAXM = (2 ^ 53 - 1) * 2 ^ 2045, and arithmetic is exact rational
computation followed by round-to-nearest, ties-to-even, implemented with
pure natural-number arithmetic so that every definition is executable.
-/

namespace StdlibDemo

/-- Doubling search for an exponent e with n < 2 ^ e, fuel-driven: the
exponent doubles each step, so the number of steps is logarithmic and
fuel n is ample. -/
def ubAux (n : ℕ) : ℕ → ℕ → ℕ
  | 0, e => e
  | f+1, e => if n < 2 ^ e then e else ubAux n f (2 * e)

/-- Binary search for the bit length inside a bracket lo < hi that
satisfies 2 ^ lo ≤ n < 2 ^ hi; fuel hi - lo is ample. -/
def blAux (n : ℕ) : ℕ → ℕ → ℕ → ℕ
  | 0, lo, _ => lo + 1
  | f+1, lo, hi =>
    if hi ≤ lo + 1 then lo + 1
    else if n < 2 ^ ((lo + hi) / 2) then blAux n f lo ((lo + hi) / 2)
    else blAux n f ((lo + hi) / 2) hi

/-- Number of binary digits of a natural number (0 for 0): the unique k
with 2 ^ (k - 1) ≤ n < 2 ^ k for positive n, computed by a doubling
search followed by a binary search so that evaluation recursion stays
shallow. -/
def bitlen (n : ℕ) : ℕ :=
  if n = 0 then 0 else blAux n (2 * n) 0 (ubAux n n 1)

/-- Largest finite binary64 magnitude in units of 2 ^ (-1074):
(2 - 2 ^ (-52)) * 2 ^ 1023 = (2 ^ 53 - 1) * 2 ^ 971 scaled by 2 ^ 1074. -/
def MAXM : ℕ := (2 ^ 53 - 1) * 2 ^ 2045

/-- IEEE-754 binary64 value: NaN, a signed infinity, or a finite value
with sign `neg` and magnitude `m * 2 ^ (-1074)`. -/
inductive F64 where
  | nan : F64
  | inf (neg : Bool) : F64
  | fin (neg : Bool) (m : ℕ) : F64
deriving DecidableEq, Repr

/-- Signed grid value of a finite float, in units of 2 ^ (-1074). -/
def gval (neg : Bool) (m : ℕ) : ℤ := if neg then -(m : ℤ) else (m : ℤ)

/-- Exponent of the rounding quantum for a value whose integer part (in
grid units of 2 ^ (-1074)) is fl: subnormals and the lowest normal binade
round on the unit grid, and each higher binade doubles the quantum. -/
def quantumExp (fl : ℕ) : ℕ := if fl < 2 ^ 52 then 0 else bitlen fl - 53

/-- Round half to even: q is the floor of the quotient, r the remainder,
D the divisor; ties (2r = D) go to the even neighbour. -/
def rneHalf (q r D : ℕ) : ℕ :=
  if 2 * r < D then q
  else if D < 2 * r then q + 1
  else if q % 2 = 0 then q else q + 1

/-- Round-to-nearest, ties-to-even, of the nonnegative rational
`num / den` (in grid units of 2 ^ (-1074)) onto the binary64 magnitude
grid, with unbounded exponent. -/
def rneM (num den : ℕ) : ℕ :=
  let k := quantumExp (num / den)
  rneHalf (num / (den * 2 ^ k)) (num % (den * 2 ^ k)) (den * 2 ^ k) * 2 ^ k

/-- Round a signed exact result `(-1) ^ neg * num / den` (grid units) to a
binary64 value: round the magnitude to nearest-even and overflow to a
signed infinity beyond the largest finite magnitude. -/
def roundPos (neg : Bool) (num den : ℕ) : F64 :=
  if MAXM < rneM num den then .inf neg else .fin neg (rneM num den)

/-- The JavaScript NaN test (x !== x), as in
@stdlib/math/base/assert/is-nan and the isnan helper in web/app.js. -/
def isnanF : F64 → Bool
  | .nan => true
  | .inf _ => false
  | .fin _ _ => false

/-- The JavaScript infinity test (x === PINF || x === NINF), as in
@stdlib/math/base/assert/is-infinite and the helper in web/app.js. -/
def isinfiniteF : F64 → Bool
  | .nan => false
  | .inf _ => true
  | .fin _ _ => false

/-- IEEE equality, the JavaScript === on numbers: NaN compares unequal to
everything, +0 equals -0, and otherwise values are compared exactly. -/
def ieeeEq : F64 → F64 → Bool
  | .nan, _ => false
  | _, .nan => false
  | .inf s, .inf t => s == t
  | .inf _, .fin _ _ => false
  | .fin _ _, .inf _ => false
  | .fin s m, .fin t n => (m == 0 && n == 0) || (s == t && m == n)

/-- IEEE less-than, the JavaScript < on numbers. -/
def ltF : F64 → F64 → Bool
  | .nan, _ => false
  | _, .nan => false
  | .inf s, .inf t => s && !t
  | .inf s, .fin _ _ => s
  | .fin _ _, .inf t => !t
  | .fin s m, .fin t n => decide (gval s m < gval t n)

/-- IEEE greater-than, the JavaScript > on numbers. -/
def gtF (a b : F64) : Bool := ltF b a

/-- IEEE negation. -/
def negF : F64 → F64
  | .nan => .nan
  | .inf s => .inf (!s)
  | .fin s m => .fin (!s) m

/-- The absolute value used by lib/compare.js, i.e.
@stdlib/math/base/special/abs (Math.abs): the magnitude with positive
sign, so that abs of -0 is +0. -/
def absLib : F64 → F64
  | .nan => .nan
  | .inf _ => .inf false
  | .fin _ m => .fin false m

/-- The zero float +0. -/
def zeroF : F64 := .fin false 0

/-- The hand-rolled absolute value of web/app.js:
(x < 0) ? -x : x, which maps -0 to -0. -/
def absWeb (x : F64) : F64 := if ltF x zeroF then negF x else x

/-- IEEE binary64 addition, round-to-nearest: exact integer arithmetic on
the grid followed by rounding; an exact zero sum of nonzero or mixed-sign
operands gets sign +0, while (-0) + (-0) = -0. -/
def addF : F64 → F64 → F64
  | .nan, _ => .nan
  | _, .nan => .nan
  | .inf s, .inf t => if s = t then .inf s else .nan
  | .inf s, .fin _ _ => .inf s
  | .fin _ _, .inf t => .inf t
  | .fin s m, .fin t n =>
    let d := gval s m + gval t n
    if d = 0 then (if m = 0 ∧ n = 0 then .fin (s && t) 0 else .fin false 0)
    else roundPos (decide (d < 0)) d.natAbs 1

/-- IEEE binary64 subtraction, round-to-nearest; the zero-sign rules
mirror addition, so (-0) - (+0) = -0 and x - x = +0 for nonzero x. -/
def subF : F64 → F64 → F64
  | .nan, _ => .nan
  | _, .nan => .nan
  | .inf s, .inf t => if s = t then .nan else .inf s
  | .inf s, .fin _ _ => .inf s
  | .fin _ _, .inf t => .inf (!t)
  | .fin s m, .fin t n =>
    let d := gval s m - gval t n
    if d = 0 then (if m = 0 ∧ n = 0 then .fin (s && !t) 0 else .fin false 0)
    else roundPos (decide (d < 0)) d.natAbs 1

/-- IEEE binary64 multiplication: the exact product of two grid values
m1 * m2 * 2 ^ (-2148) rounds on numerator m1 * m2 over denominator
2 ^ 1074; infinity times zero is NaN. -/
def mulF : F64 → F64 → F64
  | .nan, _ => .nan
  | _, .nan => .nan
  | .inf s, .inf t => .inf (xor s t)
  | .inf s, .fin t n => if n = 0 then .nan else .inf (xor s t)
  | .fin s m, .inf t => if m = 0 then .nan else .inf (xor s t)
  | .fin s m, .fin t n => roundPos (xor s t) (m * n) (2 ^ 1074)

/-- IEEE binary64 division: 0/0 and inf/inf are NaN, a nonzero finite
value over zero is a signed infinity, a finite value over an infinity is
a signed zero, and finite/finite rounds m1 * 2 ^ 1074 / m2. -/
def divF : F64 → F64 → F64
  | .nan, _ => .nan
  | _, .nan => .nan
  | .inf _, .inf _ => .nan
  | .inf s, .fin t _ => .inf (xor s t)
  | .fin s _, .inf t => .fin (xor s t) 0
  | .fin s m, .fin t n =>
    if n = 0 then (if m = 0 then .nan else .inf (xor s t))
    else roundPos (xor s t) (m * 2 ^ 1074) n

/-- @stdlib/constants/float64/eps, the machine epsilon 2 ^ (-52), also
the FLOAT64_EPS literal 2.2204460492503131e-16 of web/app.js. -/
def FLOAT64_EPS : F64 := .fin false (2 ^ 1022)

/-- The float 1.0. -/
def oneF : F64 := .fin false (2 ^ 1074)

/-- The float 2.0. -/
def twoF : F64 := .fin false (2 ^ 1075)

/-- The positive infinity PINF of web/app.js. -/
def PINF : F64 := .inf false

/-- ulpDiff from src/lib/compare.js lines 33-50: IEEE-equal values give
0; any NaN gives NaN; any infinity gives +Infinity; a zero first argument
gives abs(b) / (FLOAT64_EPS / 2); otherwise
abs(a - b) / (abs(a) * FLOAT64_EPS). -/
def ulpDiff (a b : F64) : F64 :=
  if ieeeEq a b then .fin false 0
  else if isnanF a || isnanF b then .nan
  else if isinfiniteF a || isinfiniteF b then .inf false
  else if ieeeEq a zeroF then divF (absLib b) (divF FLOAT64_EPS twoF)
  else divF (absLib (subF a b)) (mulF (absLib a) FLOAT64_EPS)

/-- ulpDiff from src/web/app.js lines 305-315, which uses the local
absolute value (x < 0) ? -x : x and the PINF constant but is otherwise
the same five-branch policy. -/
def ulpDiffWeb (a b : F64) : F64 :=
  if ieeeEq a b then .fin false 0
  else if isnanF a || isnanF b then .nan
  else if isinfiniteF a || isinfiniteF b then PINF
  else if ieeeEq a zeroF then divF (absWeb b) (divF FLOAT64_EPS twoF)
  else divF (absWeb (subF a b)) (mulF (absWeb a) FLOAT64_EPS)

/-- Modelled from the spec: the machineEpsilon of section 4.1, given there
as the decimal 2.220446049250313e-16, i.e. the binary64 value nearest to
2220446049250313 / 10 ^ 31. -/
def machineEpsilonSpec : F64 := roundPos false (2220446049250313 * 2 ^ 1074) (10 ^ 31)

/-- Modelled from the spec: the five-rule ulpDistance policy of section
4.1, checked in order, with machineEpsilon taken from the decimal the
spec states. -/
def ulpDistanceSpec (a b : F64) : F64 :=
  if ieeeEq a b then .fin false 0
  else if isnanF a || isnanF b then .nan
  else if isinfiniteF a || isinfiniteF b then .inf false
  else if ieeeEq a zeroF then divF (absLib b) (divF machineEpsilonSpec twoF)
  else divF (absLib (subF a b)) (mulF (absLib a) machineEpsilonSpec)

/-- The mutable loop state of runComparison in src/lib/compare.js lines
62-108: running maximum and sum of finite ULP differences, the input
achieving the maximum, and the agreement and comparable counters (the
counters stay far below 2 ^ 53, where JavaScript float increments are
exact, so they are embedded as naturals). -/
structure SweepState where
  maxUlpDiff : F64
  totalDiff : F64
  worstCase : F64
  nAgree : ℕ
  nTotal : ℕ
deriving DecidableEq, Repr

/-- The state before the loop of runComparison (lines 73-77). -/
def initState : SweepState :=
  { maxUlpDiff := .fin false 0
    totalDiff := .fin false 0
    worstCase := .fin false 0
    nAgree := 0
    nTotal := 0 }

/-- One iteration of the loop of runComparison (lines 79-108): skip when
both values are NaN, or both infinite and IEEE-equal; otherwise count the
point in nTotal, count an IEEE-equal pair in nAgree, and for a divergent
pair accumulate ulpDiff into the sum and the maximum only when it is
neither NaN nor infinite. -/
def sweepStep (stdlibFn nativeFn : F64 → F64) (s : SweepState) (x : F64) : SweepState :=
  let stdlibVal := stdlibFn x
  let nativeVal := nativeFn x
  if isnanF stdlibVal && isnanF nativeVal then s
  else if isinfiniteF stdlibVal && isinfiniteF nativeVal && ieeeEq stdlibVal nativeVal then s
  else
    let s1 := { s with nTotal := s.nTotal + 1 }
    if ieeeEq stdlibVal nativeVal then { s1 with nAgree := s1.nAgree + 1 }
    else
      let diff := ulpDiff stdlibVal nativeVal
      if !isnanF diff && !isinfiniteF diff then
        let s2 := { s1 with totalDiff := addF s1.totalDiff diff }
        if gtF diff s2.maxUlpDiff then
          { s2 with maxUlpDiff := diff, worstCase := x }
        else s2
      else s1

/-- The loop of runComparison over the whole test-point array. -/
def runComparison (stdlibFn nativeFn : F64 → F64) (testPoints : List F64) : SweepState :=
  testPoints.foldl (sweepStep stdlibFn nativeFn) initState

/-- Conversion of a natural counter to a float, as JavaScript does when a
counter enters float arithmetic. -/
def ofNatF (n : ℕ) : F64 := roundPos false (n * 2 ^ 1074) 1

/-- The float 100.0 of the percentage line. -/
def hundredF : F64 := .fin false (100 * 2 ^ 1074)

/-- The user-facing summary printed by runComparison (lines 110-125):
points tested is the length of the array, the percentage line computes
100 * nAgree / nTotal, and the average ULP difference
totalDiff / (nTotal - nAgree) is shown only when maxUlpDiff > 0,
otherwise the block prints perfect agreement.  exactAgreements and
totalComparable are the spec names for nAgree and nTotal. -/
structure Report where
  pointsTested : ℕ
  exactAgreements : ℕ
  totalComparable : ℕ
  pct : F64
  maxShown : F64
  avgShown : Option F64
deriving DecidableEq, Repr

/-- Builds the summary of one sweep (runComparison lines 110-125). -/
def runReport (stdlibFn nativeFn : F64 → F64) (testPoints : List F64) : Report :=
  let s := runComparison stdlibFn nativeFn testPoints
  { pointsTested := testPoints.length
    exactAgreements := s.nAgree
    totalComparable := s.nTotal
    pct := divF (mulF hundredF (ofNatF s.nAgree)) (ofNatF s.nTotal)
    maxShown := s.maxUlpDiff
    avgShown :=
      if gtF s.maxUlpDiff zeroF then
        some (divF s.totalDiff (subF (ofNatF s.nTotal) (ofNatF s.nAgree)))
      else none }

/-- The per-result special test of populateEdgeCases in src/web/app.js
line 1012: isnan(result) || isinfinite(result) || result === 0. -/
def isSpecialResult (result : F64) : Bool :=
  isnanF result || isinfiniteF result || ieeeEq result zeroF

/-- The classify contract of spec section 4.3 built on the special test
of populateEdgeCases: the result of the function under test together
with its special flag. -/
def classify (x : F64) (fn : F64 → F64) : F64 × Bool :=
  (fn x, isSpecialResult (fn x))

/-- Newton iteration for the integer square root, fuel-driven: from a
start at or above the root the sequence decreases to the floor of the
root and stops at the first non-decreasing step. -/
def isqrtAux (n : ℕ) : ℕ → ℕ → ℕ
  | 0, x => x
  | f+1, x =>
    let y := (x + n / x) / 2
    if y < x then isqrtAux n f y else x

/-- Integer square root, the largest s with s * s ≤ n: Newton iteration
from 2 ^ (bitlen n / 2 + 1), which exceeds the root; fuel bitlen n is
far more than the logarithmic number of steps the iteration needs. -/
def isqrt (n : ℕ) : ℕ :=
  if n = 0 then 0 else isqrtAux n (bitlen n) (2 ^ (bitlen n / 2 + 1))

/-- Round-to-nearest, ties-to-even, of the real square root of the
natural N onto the binary64 magnitude grid: the floor s of the root fixes
the quantum 2 ^ k, and the comparison of 4 * N with the square of the
odd midpoint decides the rounding direction exactly. -/
def roundSqrtM (N : ℕ) : ℕ :=
  let s := isqrt N
  let k := quantumExp s
  let q := s / 2 ^ k
  let mid := (2 * q + 1) * 2 ^ k
  let m0 :=
    if mid * mid < 4 * N then q + 1
    else if 4 * N < mid * mid then q
    else if q % 2 = 0 then q else q + 1
  m0 * 2 ^ k

/-- Modelled from the spec: Math.sqrt, absent from src (only called
there), the IEEE-754 binary64 square root: NaN for NaN, negative inputs
(section 8 requires sqrt of -1 to be NaN) and negative infinity; the
signed zeros and positive infinity map to themselves (section 8 requires
sqrt of -0 to be -0); a positive finite value m * 2 ^ (-1074) rounds the
real root, i.e. the root of m * 2 ^ 1074 in grid units, to nearest-even. -/
def sqrtF : F64 → F64
  | .nan => .nan
  | .inf s => if s then .nan else .inf false
  | .fin s m =>
    if m = 0 then .fin s 0
    else if s then .nan
    else .fin false (roundSqrtM (m * 2 ^ 1074))

/-- A float that is NaN, positive infinity, or a nonnegative finite
value: the possible outputs of ulpDiff. -/
def NonnegRes (x : F64) : Prop :=
  x = .nan ∨ x = .inf false ∨ ∃ m, x = .fin false m

/-- The loop invariant of runComparison: the agreement count never
exceeds the comparable count, the running maximum is a nonnegative
finite float, and a strictly positive maximum forces at least one
divergent comparable point. -/
def SweepInv (s : SweepState) : Prop :=
  s.nAgree ≤ s.nTotal ∧ (∃ m, s.maxUlpDiff = .fin false m) ∧
    (gtF s.maxUlpDiff zeroF = true → s.nAgree < s.nTotal)

/-- The float 4.0 of the spec scenario for the classifier. -/
def fourF : F64 := .fin false (4 * 2 ^ 1074)

/-- The float -0.0. -/
def negZeroF : F64 := .fin true 0

/-- The float -1.0. -/
def negOneF : F64 := .fin true (2 ^ 1074)

/-- The float 5e-324, the smallest positive subnormal 2 ^ (-1074). -/
def tinyF : F64 := .fin false 1

/-- The float 709.0 of the exp-overflow scenario. -/
def n709 : F64 := .fin false (709 * 2 ^ 1074)

/-- The float 710.0 of the exp-overflow scenario. -/
def n710 : F64 := .fin false (710 * 2 ^ 1074)

/-- The float 711.0 of the exp-overflow scenario. -/
def n711 : F64 := .fin false (711 * 2 ^ 1074)

/-! Helper lemmas about the embedding. -/

theorem ubAux_lt (n : ℕ) : ∀ (fuel e : ℕ), 1 ≤ e → n + 1 ≤ e + fuel →
    n < 2 ^ ubAux n fuel e := by
  intro fuel
  induction fuel with
  | zero =>
    intro e he hle
    rw [ubAux]
    have h1 : n < e := by omega
    exact lt_trans h1 (Nat.lt_two_pow e)
  | succ f ih =>
    intro e he hle
    rw [ubAux]
    split
    · assumption
    · exact ih (2 * e) (by omega) (by omega)

theorem ubAux_le (n : ℕ) : ∀ (fuel e : ℕ), ubAux n fuel e ≤ max e (2 * n) := by
  intro fuel
  induction fuel with
  | zero => intro e; rw [ubAux]; exact le_max_left _ _
  | succ f ih =>
    intro e
    rw [ubAux]
    split
    · exact le_max_left _ _
    · rename_i hge
      have h1 : e < 2 ^ e := Nat.lt_two_pow e
      have h2 : 2 * e ≤ 2 * n := by omega
      calc ubAux n f (2 * e) ≤ max (2 * e) (2 * n) := ih _
        _ = 2 * n := Nat.max_eq_right h2
        _ ≤ max e (2 * n) := le_max_right _ _

theorem blAux_sound (n : ℕ) : ∀ (fuel lo hi : ℕ), lo < hi → hi - lo ≤ fuel →
    2 ^ lo ≤ n → n < 2 ^ hi →
    1 ≤ blAux n fuel lo hi ∧ 2 ^ (blAux n fuel lo hi - 1) ≤ n ∧
      n < 2 ^ blAux n fuel lo hi := by
  intro fuel
  induction fuel with
  | zero => intro lo hi h1 h2 _ _; omega
  | succ f ih =>
    intro lo hi hlh hfuel hlo hhi
    rw [blAux]
    split
    · rename_i hle
      have hhi1 : hi = lo + 1 := by omega
      subst hhi1
      exact ⟨by omega, by simpa using hlo, hhi⟩
    · rename_i hgt
      split
      · rename_i hmid
        exact ih lo ((lo + hi) / 2) (by omega) (by omega) hlo hmid
      · rename_i hmid
        exact ih ((lo + hi) / 2) hi (by omega) (by omega) (by omega) hhi

theorem pow_bitlen_pred_le (n : ℕ) (h : 1 ≤ n) : 2 ^ (bitlen n - 1) ≤ n := by
  rw [bitlen, if_neg (by omega)]
  have hub : n < 2 ^ ubAux n n 1 := ubAux_lt n n 1 le_rfl (by omega)
  have hpos : 0 < ubAux n n 1 := by
    by_contra hc
    have h0 : ubAux n n 1 = 0 := by omega
    rw [h0] at hub
    simp at hub
    omega
  have hle : ubAux n n 1 ≤ max 1 (2 * n) := ubAux_le n n 1
  have hmax : max 1 (2 * n) = 2 * n := Nat.max_eq_right (by omega)
  have hs := blAux_sound n (2 * n) 0 (ubAux n n 1) hpos (by omega)
    (by simpa using h) hub
  exact hs.2.1

theorem pow_quantumExp_le (fl : ℕ) (h : 1 ≤ fl) : 2 ^ quantumExp fl ≤ fl := by
  rw [quantumExp]
  split
  · simpa using h
  · calc 2 ^ (bitlen fl - 53) ≤ 2 ^ (bitlen fl - 1) :=
        Nat.pow_le_pow_right (by norm_num) (by omega)
    _ ≤ fl := pow_bitlen_pred_le fl h

theorem le_rneHalf (q r D : ℕ) : q ≤ rneHalf q r D := by
  rw [rneHalf]
  split
  · exact le_rfl
  · split
    · omega
    · split <;> omega

theorem rneM_one_pos (d : ℕ) (h : 1 ≤ d) : 1 ≤ rneM d 1 := by
  rw [rneM]
  have hd1 : d / 1 = d := Nat.div_one d
  have hq : 1 ≤ d / (1 * 2 ^ quantumExp (d / 1)) := by
    rw [hd1, one_mul]
    exact (Nat.one_le_div_iff (Nat.pos_pow_of_pos _ (by norm_num))).mpr
      (pow_quantumExp_le d h)
  calc 1 = 1 * 1 := by norm_num
  _ ≤ rneHalf (d / (1 * 2 ^ quantumExp (d / 1)))
        (d % (1 * 2 ^ quantumExp (d / 1))) (1 * 2 ^ quantumExp (d / 1))
        * 2 ^ quantumExp (d / 1) :=
    Nat.mul_le_mul (le_trans hq (le_rneHalf _ _ _))
      (Nat.one_le_two_pow)

theorem roundPos_ne_negZeroFin (neg : Bool) (num den : ℕ) (h : 1 ≤ rneM num den)
    (s : Bool) : roundPos neg num den ≠ .fin s 0 := by
  rw [roundPos]
  split
  · intro hc; exact F64.noConfusion hc
  · intro hc
    have := F64.fin.inj hc
    omega

theorem ieeeEq_refl (a : F64) (h : isnanF a = false) : ieeeEq a a = true := by
  cases a <;> simp_all [ieeeEq, isnanF]

theorem absWeb_eq_absLib (x : F64) (h : x ≠ .fin true 0) : absWeb x = absLib x := by
  cases x with
  | nan => rfl
  | inf s => cases s <;> rfl
  | fin s m =>
    cases s with
    | false =>
      simp [absWeb, absLib, ltF, gval, zeroF]
    | true =>
      have hm : m ≠ 0 := by
        intro hc; exact h (by rw [hc])
      simp [absWeb, absLib, ltF, gval, zeroF, negF]
      omega

theorem subF_fin_ne_negZero (sa sb : Bool) (ma mb : ℕ)
    (h : ieeeEq (.fin sa ma) (.fin sb mb) = false) :
    subF (.fin sa ma) (.fin sb mb) ≠ .fin true 0 := by
  rw [subF]
  split
  · split
    · rename_i hd hz
      exfalso
      rw [ieeeEq] at h
      simp [hz.1, hz.2] at h
    · intro hc
      exact absurd (F64.fin.inj hc).1 (by simp)
  · rename_i hd
    apply roundPos_ne_negZeroFin
    apply rneM_one_pos
    omega

theorem roundPos_false_shape (num den : ℕ) : NonnegRes (roundPos false num den) := by
  rw [roundPos]
  split
  · exact Or.inr (Or.inl rfl)
  · exact Or.inr (Or.inr ⟨_, rfl⟩)

theorem absLib_shape (x : F64) : NonnegRes (absLib x) := by
  cases x with
  | nan => exact Or.inl rfl
  | inf s => exact Or.inr (Or.inl rfl)
  | fin s m => exact Or.inr (Or.inr ⟨m, rfl⟩)

theorem divF_shape (x y : F64) (hx : NonnegRes x) (hy : NonnegRes y) :
    NonnegRes (divF x y) := by
  rcases hx with hx | hx | ⟨m, hx⟩ <;> rcases hy with hy | hy | ⟨n, hy⟩ <;> subst hx <;> subst hy
  · exact Or.inl rfl
  · exact Or.inl rfl
  · exact Or.inl rfl
  · exact Or.inl rfl
  · exact Or.inl rfl
  · exact Or.inr (Or.inl rfl)
  · exact Or.inl rfl
  · exact Or.inr (Or.inr ⟨0, rfl⟩)
  · rw [divF]
    split
    · split
      · exact Or.inl rfl
      · exact Or.inr (Or.inl rfl)
    · exact roundPos_false_shape _ _

theorem mulF_shape (x y : F64) (hx : NonnegRes x) (hy : NonnegRes y) :
    NonnegRes (mulF x y) := by
  rcases hx with hx | hx | ⟨m, hx⟩ <;> rcases hy with hy | hy | ⟨n, hy⟩ <;> subst hx <;> subst hy
  · exact Or.inl rfl
  · exact Or.inl rfl
  · exact Or.inl rfl
  · exact Or.inl rfl
  · exact Or.inr (Or.inl rfl)
  · rw [mulF]
    split
    · exact Or.inl rfl
    · exact Or.inr (Or.inl rfl)
  · exact Or.inl rfl
  · rw [mulF]
    split
    · exact Or.inl rfl
    · exact Or.inr (Or.inl rfl)
  · exact roundPos_false_shape _ _

theorem eps_half_shape : NonnegRes (divF FLOAT64_EPS twoF) :=
  divF_shape _ _ (Or.inr (Or.inr ⟨_, rfl⟩)) (Or.inr (Or.inr ⟨_, rfl⟩))

theorem ulpDiff_shape (a b : F64) : NonnegRes (ulpDiff a b) := by
  rw [ulpDiff]
  split
  · exact Or.inr (Or.inr ⟨0, rfl⟩)
  split
  · exact Or.inl rfl
  split
  · exact Or.inr (Or.inl rfl)
  split
  · exact divF_shape _ _ (absLib_shape b) eps_half_shape
  · exact divF_shape _ _ (absLib_shape _)
      (mulF_shape _ _ (absLib_shape a) (Or.inr (Or.inr ⟨_, rfl⟩)))

theorem fin_false_not_lt_zero (m : ℕ) : ltF (.fin false m) zeroF = false := by
  simp [ltF, zeroF, gval]

theorem nonneg_not_lt_zero (x : F64) (h : NonnegRes x) : ltF x zeroF = false := by
  rcases h with h | h | ⟨m, h⟩ <;> subst h
  · rfl
  · rfl
  · exact fin_false_not_lt_zero m

theorem sweepStep_inv (f g : F64 → F64) (s : SweepState) (x : F64)
    (h : SweepInv s) : SweepInv (sweepStep f g s x) := by
  obtain ⟨h1, hsh, h3⟩ := h
  simp only [sweepStep]
  split
  · exact ⟨h1, hsh, h3⟩
  split
  · exact ⟨h1, hsh, h3⟩
  split
  · exact ⟨Nat.succ_le_succ h1, hsh, fun hg => Nat.succ_lt_succ (h3 hg)⟩
  split
  · rename_i hne hfin
    split
    · rename_i hgt
      refine ⟨Nat.le_succ_of_le h1, ?_, fun _ => Nat.lt_succ_of_le h1⟩
      rcases ulpDiff_shape (f x) (g x) with hd | hd | ⟨m, hd⟩
      · rw [hd] at hfin; simp [isnanF] at hfin
      · rw [hd] at hfin; simp [isinfiniteF] at hfin
      · exact ⟨m, hd⟩
    · exact ⟨Nat.le_succ_of_le h1, hsh, fun hg => Nat.lt_succ_of_lt (h3 hg)⟩
  · exact ⟨Nat.le_succ_of_le h1, hsh, fun hg => Nat.lt_succ_of_lt (h3 hg)⟩

theorem initState_inv : SweepInv initState := by
  refine ⟨le_rfl, ⟨0, rfl⟩, fun hg => ?_⟩
  simp [gtF, ltF, initState, zeroF, gval] at hg

theorem runComparison_inv (f g : F64 → F64) (l : List F64) :
    SweepInv (runComparison f g l) := by
  rw [runComparison]
  have step : ∀ (t : List F64) (s : SweepState), SweepInv s →
      SweepInv (t.foldl (sweepStep f g) s) := by
    intro t
    induction t with
    | nil => intro s hs; exact hs
    | cons a u ih => intro s hs; exact ih _ (sweepStep_inv f g s a hs)
  exact step l initState initState_inv

/-- When the candidate and reference are the same function, one loop step
either skips the point (the value was NaN or infinite) or counts it as
one more agreement among one more comparable point. -/
theorem sweepStep_self (f : F64 → F64) (s : SweepState) (x : F64) :
    (sweepStep f f s x = s ∧
       (isnanF (f x) = true ∨ isinfiniteF (f x) = true)) ∨
    (sweepStep f f s x = { s with nTotal := s.nTotal + 1, nAgree := s.nAgree + 1 } ∧
       isnanF (f x) = false ∧ isinfiniteF (f x) = false) := by
  cases hfx : f x with
  | nan => exact Or.inl ⟨by simp [sweepStep, hfx, isnanF], Or.inl rfl⟩
  | inf t =>
    refine Or.inl ⟨?_, Or.inr rfl⟩
    simp [sweepStep, hfx, isnanF, isinfiniteF, ieeeEq]
  | fin t m =>
    refine Or.inr ⟨?_, rfl, rfl⟩
    have he : ieeeEq (F64.fin t m) (F64.fin t m) = true := ieeeEq_refl _ rfl
    simp [sweepStep, hfx, isnanF, isinfiniteF, he]

/-- Folding the self-comparison loop from any state keeps the difference
between the two counters and the running maximum, and counts every point
whose value is neither NaN nor infinite. -/
theorem foldl_self (f : F64 → F64) :
    ∀ (l : List F64) (s : SweepState),
      (l.foldl (sweepStep f f) s).nAgree + s.nTotal
          = (l.foldl (sweepStep f f) s).nTotal + s.nAgree ∧
      (l.foldl (sweepStep f f) s).maxUlpDiff = s.maxUlpDiff ∧
      ((∀ x ∈ l, isnanF (f x) = false ∧ isinfiniteF (f x) = false) →
        (l.foldl (sweepStep f f) s).nTotal = s.nTotal + l.length) := by
  intro l
  induction l with
  | nil => intro s; exact ⟨by simp [Nat.add_comm], rfl, by simp⟩
  | cons a t ih =>
    intro s
    rcases sweepStep_self f s a with ⟨heq, hspec⟩ | ⟨heq, hn, hi⟩
    · simp only [List.foldl_cons, heq]
      obtain ⟨i1, i2, i3⟩ := ih s
      refine ⟨i1, i2, fun hall => ?_⟩
      exfalso
      obtain ⟨ha1, ha2⟩ := hall a (by simp)
      rcases hspec with hsp | hsp
      · simp [hsp] at ha1
      · simp [hsp] at ha2
    · simp only [List.foldl_cons, heq]
      obtain ⟨i1, i2, i3⟩ := ih { s with nTotal := s.nTotal + 1, nAgree := s.nAgree + 1 }
      refine ⟨by simp only [] at i1 ⊢; omega, by simpa using i2, fun hall => ?_⟩
      have ht := i3 (fun x hx => hall x (by simp [hx]))
      simp at ht ⊢
      omega

/-! Claim theorems. -/

/-- Claim C1: ulpDiff follows exactly the five-rule policy of spec
section 4.1, checked in order — IEEE-equal gives 0, any NaN gives NaN,
any infinity gives +Infinity, a zero first argument gives
abs b / (machineEpsilon / 2), and otherwise
abs (a - b) / (abs a * machineEpsilon) — where the machineEpsilon of the
spec, the binary64 value of the decimal 2.220446049250313e-16, is the
FLOAT64_EPS constant of the code. -/
theorem claimC1 :
    machineEpsilonSpec = FLOAT64_EPS ∧
      ∀ a b : F64, ulpDiff a b = ulpDistanceSpec a b := by
  have h : machineEpsilonSpec = FLOAT64_EPS := by decide
  refine ⟨h, fun a b => ?_⟩
  rw [ulpDiff, ulpDistanceSpec, h]

/-- Claim C2 counterexample: with candidate and reference both constantly
NaN on one input, the both-NaN sample is not counted in exactAgreements
— nAgree stays 0, contrary to the claim — though pointsTested counts it
and totalComparable excludes it. -/
theorem claimC2_counterexample :
    (runComparison (fun _ => F64.nan) (fun _ => F64.nan) [zeroF]).nAgree = 0 ∧
    (runComparison (fun _ => F64.nan) (fun _ => F64.nan) [zeroF]).nTotal = 0 ∧
    (runReport (fun _ => F64.nan) (fun _ => F64.nan) [zeroF]).pointsTested = 1 := by
  decide

/-- Claim C2 (amended): a sample where candidate and reference both
return NaN leaves the whole loop state unchanged — so it is excluded
from exactAgreements as well as from totalComparable and from divergence
accumulation — while pointsTested, the length of the input array, still
counts it. -/
theorem claimC2_amended :
    (∀ (f g : F64 → F64) (s : SweepState) (x : F64),
        isnanF (f x) = true → isnanF (g x) = true → sweepStep f g s x = s) ∧
      ∀ (f g : F64 → F64) (pts : List F64),
        (runReport f g pts).pointsTested = pts.length := by
  constructor
  · intro f g s x hf hg
    simp [sweepStep, hf, hg]
  · intro f g pts
    rfl

/-- Claim C2 witness: the amended statement applied to the constantly-NaN
pair at a concrete state and input. -/
theorem claimC2_witness :
    sweepStep (fun _ => F64.nan) (fun _ => F64.nan) initState zeroF = initState :=
  claimC2_amended.1 _ _ initState zeroF rfl rfl

/-- Claim C3 counterexample: comparing the constantly-NaN function with
itself over the non-empty input list with one point gives pointsTested 1
but totalComparable 0, so the three counts of the claim are not all
equal. -/
theorem claimC3_counterexample :
    ¬ ((runComparison (fun _ => F64.nan) (fun _ => F64.nan) [oneF]).nTotal
        = (runReport (fun _ => F64.nan) (fun _ => F64.nan) [oneF]).pointsTested) ∧
      ([oneF] : List F64) ≠ [] := by
  decide

/-- Claim C3 (amended): comparing any function f against itself yields
exactAgreements = totalComparable and maxUlpDifference = 0 on any input
list, and the two counts also equal pointsTested provided f returns
neither NaN nor an infinity on any input (a NaN or saturated point is
skipped by the loop, so it leaves both counters, but not pointsTested,
unchanged). -/
theorem claimC3_amended (f : F64 → F64) (pts : List F64) :
    (runComparison f f pts).nAgree = (runComparison f f pts).nTotal ∧
    (runComparison f f pts).maxUlpDiff = .fin false 0 ∧
    ((∀ x ∈ pts, isnanF (f x) = false ∧ isinfiniteF (f x) = false) →
      (runComparison f f pts).nTotal = (runReport f f pts).pointsTested) := by
  obtain ⟨i1, i2, i3⟩ := foldl_self f pts initState
  have e1 : initState.nTotal = 0 := rfl
  have e2 : initState.nAgree = 0 := rfl
  rw [runComparison]
  refine ⟨by omega, by rw [i2]; rfl, fun h => ?_⟩
  have h3 := i3 h
  have hr : (runReport f f pts).pointsTested = pts.length := rfl
  omega

/-- Claim C3 witness: the amended statement applied to the identity
function on two finite points. -/
theorem claimC3_witness :
    (runComparison (fun x => x) (fun x => x) [oneF, twoF]).nTotal
      = (runReport (fun x => x) (fun x => x) [oneF, twoF]).pointsTested :=
  (claimC3_amended _ _).2.2 (by decide)

/-- Claim C4 counterexample: with candidate constantly 1 and reference
constantly +Infinity on one input, the denominator
totalComparable - exactAgreements is 1 > 0 and yet the code does not
compute the average (its guard is maxUlpDiff > 0, which fails because the
infinite ULP distance was not accumulated); and with both functions
constantly NaN the printed exact-agreement percentage 100 * 0 / 0 is NaN,
a NaN in a user-facing statistic. -/
theorem claimC4_counterexample :
    ((runReport (fun _ => oneF) (fun _ => PINF) [zeroF]).totalComparable
        - (runReport (fun _ => oneF) (fun _ => PINF) [zeroF]).exactAgreements = 1 ∧
      (runReport (fun _ => oneF) (fun _ => PINF) [zeroF]).avgShown = none) ∧
    isnanF (runReport (fun _ => F64.nan) (fun _ => F64.nan) [zeroF]).pct = true := by
  decide

/-- Claim C4 (amended): the average ULP difference is computed as
totalDiff / (totalComparable - exactAgreements) exactly when
maxUlpDifference > 0 — the guard the code actually uses — and that guard
does imply the denominator is positive; the reported maximum is never
NaN or Infinity; but the exact-agreement percentage is NaN whenever
totalComparable is 0. -/
theorem claimC4_amended (f g : F64 → F64) (pts : List F64) :
    ((runReport f g pts).avgShown
        = if gtF (runReport f g pts).maxShown zeroF then
            some (divF (runComparison f g pts).totalDiff
              (subF (ofNatF (runReport f g pts).totalComparable)
                (ofNatF (runReport f g pts).exactAgreements)))
          else none) ∧
    (gtF (runReport f g pts).maxShown zeroF = true →
      (runReport f g pts).exactAgreements < (runReport f g pts).totalComparable) ∧
    isnanF (runReport f g pts).maxShown = false ∧
    isinfiniteF (runReport f g pts).maxShown = false ∧
    ((runReport f g pts).totalComparable = 0 →
      isnanF (runReport f g pts).pct = true) := by
  obtain ⟨h1, ⟨mm, hm⟩, h3⟩ := runComparison_inv f g pts
  refine ⟨rfl, fun hg => h3 hg, ?_, ?_, fun h0 => ?_⟩
  · rw [show (runReport f g pts).maxShown = (runComparison f g pts).maxUlpDiff from rfl, hm]
    rfl
  · rw [show (runReport f g pts).maxShown = (runComparison f g pts).maxUlpDiff from rfl, hm]
    rfl
  · have h0' : (runComparison f g pts).nTotal = 0 := h0
    have hA : (runComparison f g pts).nAgree = 0 := by omega
    show isnanF (divF (mulF hundredF (ofNatF (runComparison f g pts).nAgree))
      (ofNatF (runComparison f g pts).nTotal)) = true
    rw [hA, h0']
    decide

/-- Claim C4 witness: the amended statement applied to a sweep with a
strictly positive maximum. -/
theorem claimC4_witness :
    (runReport (fun _ => oneF) (fun _ => twoF) [oneF]).exactAgreements
      < (runReport (fun _ => oneF) (fun _ => twoF) [oneF]).totalComparable :=
  (claimC4_amended _ _ _).2.1 (by decide)

/-- Claim C5: a sample where both functions return infinities of the same
sign leaves the loop state unchanged (agreement by saturation, excluded
from totalComparable); a sample with two infinities of different signs or
one infinity against a finite value only increments totalComparable,
since its ULP distance is +Infinity and is kept out of the sum and the
maximum; and on the exp scenario — any function finite at 709 and
saturating to +Infinity at 710 and 711, compared against itself — only
the 709 point enters totalComparable. -/
theorem claimC5 :
    (∀ (f g : F64 → F64) (s : SweepState) (x : F64),
        isinfiniteF (f x) = true → isinfiniteF (g x) = true →
        ieeeEq (f x) (g x) = true → sweepStep f g s x = s) ∧
    (∀ (f g : F64 → F64) (s : SweepState) (x : F64),
        isnanF (f x) = false → isnanF (g x) = false →
        (isinfiniteF (f x) = true ∨ isinfiniteF (g x) = true) →
        ieeeEq (f x) (g x) = false →
        sweepStep f g s x = { s with nTotal := s.nTotal + 1 }) ∧
    (∀ f : F64 → F64,
        isnanF (f n709) = false → isinfiniteF (f n709) = false →
        f n710 = .inf false → f n711 = .inf false →
        runComparison f f [n709, n710, n711]
          = { initState with nTotal := 1, nAgree := 1 }) := by
  refine ⟨?_, ?_, ?_⟩
  · intro f g s x hfi hgi he
    cases hxf : f x with
    | nan => rw [hxf] at hfi; exact absurd hfi (by simp [isinfiniteF])
    | fin sf mf => rw [hxf] at hfi; exact absurd hfi (by simp [isinfiniteF])
    | inf sf =>
      cases hxg : g x with
      | nan => rw [hxg] at hgi; exact absurd hgi (by simp [isinfiniteF])
      | fin sg mg => rw [hxg] at hgi; exact absurd hgi (by simp [isinfiniteF])
      | inf sg =>
        rw [hxf, hxg] at he
        simp [sweepStep, hxf, hxg, isnanF, isinfiniteF, he]
  · intro f g s x hfn hgn hinf hne
    have hd : ulpDiff (f x) (g x) = .inf false := by
      rcases hinf with h | h <;> simp [ulpDiff, hne, hfn, hgn, h]
    have h5 : isinfiniteF (F64.inf false) = true := rfl
    have h6 : isnanF (F64.inf false) = false := rfl
    simp [sweepStep, hfn, hgn, hne, hd, h5, h6]
  · intro f hfn hfi h710 h711
    cases hxf : f n709 with
    | nan => rw [hxf] at hfn; exact absurd hfn (by simp [isnanF])
    | inf sf => rw [hxf] at hfi; exact absurd hfi (by simp [isinfiniteF])
    | fin sf mf =>
      have he1 : ieeeEq (F64.fin sf mf) (F64.fin sf mf) = true := ieeeEq_refl _ rfl
      simp [runComparison, sweepStep, hxf, h710, h711, isnanF, isinfiniteF, he1,
        ieeeEq, initState]

/-- Claim C5 witness: the saturation scenario applied to a concrete
function that is 1 at 709 and +Infinity elsewhere. -/
theorem claimC5_witness :
    runComparison (fun x => if ieeeEq x n709 then oneF else PINF)
        (fun x => if ieeeEq x n709 then oneF else PINF) [n709, n710, n711]
      = { initState with nTotal := 1, nAgree := 1 } :=
  claimC5.2.2 _ (by decide) (by decide) (by decide) (by decide)

/-- Claim C6: the per-result test of the edge-case table flags a pair
(x, fn) as special exactly when fn x is NaN, an infinity, or a signed
zero; and on the spec scenarios with the IEEE square root, classify of
4.0 gives (2.0, normal), classify of -0.0 gives (-0.0, special), and
classify of -1.0 gives (NaN, special). -/
theorem claimC6 :
    (∀ (x : F64) (fn : F64 → F64),
        (classify x fn).2 = true ↔
          (isnanF (fn x) = true ∨ isinfiniteF (fn x) = true ∨
            fn x = .fin false 0 ∨ fn x = .fin true 0)) ∧
    classify fourF sqrtF = (twoF, false) ∧
    classify negZeroF sqrtF = (negZeroF, true) ∧
    classify negOneF sqrtF = (F64.nan, true) := by
  refine ⟨fun x fn => ?_, by decide, by decide, by decide⟩
  cases hr : fn x with
  | nan => simp [classify, isSpecialResult, hr, isnanF]
  | inf s => simp [classify, isSpecialResult, hr, isnanF, isinfiniteF]
  | fin s m =>
    cases s <;> simp [classify, isSpecialResult, hr, isnanF, isinfiniteF, ieeeEq, zeroF]

/-- Claim C7: every completed sweep satisfies
exactAgreements ≤ totalComparable, and its running maximum is a
nonnegative float (not below zero, and not NaN); correspondingly ulpDiff
never returns a negative value — every result is NaN, +Infinity, or a
nonnegative finite float. -/
theorem claimC7 :
    (∀ (f g : F64 → F64) (pts : List F64),
        (runComparison f g pts).nAgree ≤ (runComparison f g pts).nTotal ∧
        ltF (runComparison f g pts).maxUlpDiff zeroF = false ∧
        isnanF (runComparison f g pts).maxUlpDiff = false) ∧
    (∀ a b : F64, ltF (ulpDiff a b) zeroF = false ∧
        (ulpDiff a b = .nan ∨ ulpDiff a b = .inf false ∨
          ∃ m, ulpDiff a b = .fin false m)) := by
  constructor
  · intro f g pts
    obtain ⟨h1, ⟨m, hm⟩, h3⟩ := runComparison_inv f g pts
    exact ⟨h1, by rw [hm]; exact fin_false_not_lt_zero m, by rw [hm]; rfl⟩
  · intro a b
    exact ⟨nonneg_not_lt_zero _ (ulpDiff_shape a b), ulpDiff_shape a b⟩

/-- Claim C8: ulpDiff is not symmetric — at a = 1.0 and b = 2.0, both
non-NaN and unequal, ulpDiff a b is 2 ^ 52 while ulpDiff b a is 2 ^ 51,
because rule 5 divides by the absolute value of the first argument. -/
theorem claimC8 :
    ∃ a b : F64, isnanF a = false ∧ isnanF b = false ∧ a ≠ b ∧
      ieeeEq a b = false ∧ ulpDiff a b ≠ ulpDiff b a :=
  ⟨oneF, twoF, rfl, rfl, by decide, by decide, by decide⟩

/-- Claim C9: the ulpDiff of src/lib/compare.js and the ulpDiff of
src/web/app.js are the same function on every pair of floats — the only
textual difference, the hand-rolled absolute value that preserves -0,
never matters because -0 cannot reach an absolute value inside either
definition. -/
theorem claimC9 : ∀ a b : F64, ulpDiff a b = ulpDiffWeb a b := by
  intro a b
  cases a with
  | nan => rfl
  | inf s =>
    cases b with
    | nan => rfl
    | inf t => cases s <;> cases t <;> rfl
    | fin t n => rfl
  | fin s m =>
    cases b with
    | nan => rfl
    | inf t => rfl
    | fin t n =>
      by_cases heq : ieeeEq (.fin s m) (.fin t n) = true
      · simp [ulpDiff, ulpDiffWeb, heq]
      · have heq' : ieeeEq (.fin s m) (.fin t n) = false := by
          cases hc : ieeeEq (.fin s m) (.fin t n)
          · rfl
          · exact absurd hc heq
        by_cases h0 : ieeeEq (.fin s m) zeroF = true
        · have hm0 : m = 0 := by
            simp [ieeeEq, zeroF] at h0
            tauto
          have hb : (F64.fin t n) ≠ .fin true 0 := by
            intro hc
            rw [hc] at heq'
            subst hm0
            simp [ieeeEq] at heq'
          rw [ulpDiff, ulpDiffWeb]
          simp only [heq', h0, isnanF, isinfiniteF, Bool.or_self, Bool.false_eq_true,
            if_false, if_true]
          rw [absWeb_eq_absLib _ hb]
        · have h0' : ieeeEq (.fin s m) zeroF = false := by
            cases hc : ieeeEq (.fin s m) zeroF
            · rfl
            · exact absurd hc h0
          have ha : (F64.fin s m) ≠ .fin true 0 := by
            intro hc
            rw [hc] at h0'
            simp [ieeeEq, zeroF] at h0'
          have hsub := subF_fin_ne_negZero s t m n heq'
          rw [ulpDiff, ulpDiffWeb]
          simp only [heq', h0', isnanF, isinfiniteF, Bool.or_self, Bool.false_eq_true,
            if_false]
          rw [absWeb_eq_absLib _ ha, absWeb_eq_absLib _ hsub]

/-- Claim C10: at a = 5e-324 and b = 1.0 — finite, unequal, nonzero a,
no NaN — the denominator abs a * FLOAT64_EPS underflows to +0, the
division then yields +Infinity, so ulpDiff returns +Infinity on two
finite unequal values; and in a sweep such a sample increments
totalComparable while leaving the ULP sum and the maximum at zero. -/
theorem claimC10 :
    isnanF tinyF = false ∧ isinfiniteF tinyF = false ∧
    isnanF oneF = false ∧ isinfiniteF oneF = false ∧
    tinyF ≠ oneF ∧ ieeeEq tinyF zeroF = false ∧
    mulF (absLib tinyF) FLOAT64_EPS = zeroF ∧
    divF (absLib (subF tinyF oneF)) (mulF (absLib tinyF) FLOAT64_EPS) = .inf false ∧
    ulpDiff tinyF oneF = .inf false ∧
    (runComparison (fun _ => tinyF) (fun _ => oneF) [twoF]).nTotal = 1 ∧
    (runComparison (fun _ => tinyF) (fun _ => oneF) [twoF]).nAgree = 0 ∧
    (runComparison (fun _ => tinyF) (fun _ => oneF) [twoF]).totalDiff = .fin false 0 ∧
    (runComparison (fun _ => tinyF) (fun _ => oneF) [twoF]).maxUlpDiff = .fin false 0 := by
  decide

end StdlibDemo
